import Mathlib

/-!
# Verification of the image compositing engine (`src/composites/image_composites.py`)

This file gives a shallow embedding of the compositing script and proves /
refutes the frozen claims about it.  Band values are modelled as rationals
(the script's arithmetic is numpy elementwise arithmetic; true division of
integer rasters produces exact small rationals on all inputs considered
here).  Stacked buffers are nested lists indexed `[image][band][row][col]`;
per-pixel reductions along the image axis are functions `List ℚ → _`.

External collaborators are modelled at their documented interfaces:
`np.argmax` / `np.argmin` return the first index attaining the extremum
along the axis, `np.median` sorts and takes the middle element (mean of the
two middle elements for even length), and the snuggs expression parser is an
abstract parameter `parse` of the pipeline (the script calls
`snuggs.eval(expr, **crit)`, which parses and then evaluates; evaluation
with the function table installed by the script is embedded concretely
below).
-/

namespace ImageComposites

/-! ## Per-pixel selection primitives (lines 144-147 of the source)

The script overwrites `snuggs.func_map`:
  * `max`    ↦ `lambda a: np.argmax(a, axis=0)`
  * `min`    ↦ `lambda a: np.argmin(a, axis=0)`
  * `median` ↦ `lambda a: np.argmin(np.abs(a - np.median(a, axis=0)), axis=0)`
All three operate independently per pixel along the image axis, so they are
modelled on the list of values one pixel takes across the stacked images. -/

/-- Maximum of a list of rationals (`0` for the empty list, which numpy
rejects; all uses are guarded by nonemptiness). -/
def listMax : List ℚ → ℚ
  | [] => 0
  | [x] => x
  | x :: y :: ys => max x (listMax (y :: ys))

/-- Minimum of a list of rationals. -/
def listMin : List ℚ → ℚ
  | [] => 0
  | [x] => x
  | x :: y :: ys => min x (listMin (y :: ys))

/-- Numpy `np.argmax` along an axis: the first index at which the maximum value
occurs (numpy documents first-occurrence tie-breaking). -/
def np_argmax : List ℚ → ℕ
  | [] => 0
  | [_] => 0
  | x :: y :: ys => if listMax (y :: ys) ≤ x then 0 else np_argmax (y :: ys) + 1

/-- Numpy `np.argmin` along an axis: the first index at which the minimum value
occurs. -/
def np_argmin : List ℚ → ℕ
  | [] => 0
  | [_] => 0
  | x :: y :: ys => if x ≤ listMin (y :: ys) then 0 else np_argmin (y :: ys) + 1

/-- Numpy `np.median` along an axis: sort ascending, take the middle element for
odd length and the mean of the two middle elements for even length. -/
def np_median (l : List ℚ) : ℚ :=
  let s := l.insertionSort (· ≤ ·)
  let n := l.length
  if n % 2 = 1 then s.getD (n / 2) 0
  else (s.getD (n / 2 - 1) 0 + s.getD (n / 2) 0) / 2

/-- The script's `median` selection function at one pixel:
`np.argmin(np.abs(a - np.median(a, axis=0)), axis=0)`. -/
def medianSelect (l : List ℚ) : ℕ :=
  np_argmin (l.map (fun x => |x - np_median l|))

/-! ## Python string membership (`k in expr`, line 141) -/

/-- Test `prefixMatch n h`: true iff the char list `n` is a prefix of `h`. -/
def prefixMatch : List Char → List Char → Bool
  | [], _ => true
  | _ :: _, [] => false
  | a :: as, b :: bs => a == b && prefixMatch as bs

/-- Test `substrAt n h`: true iff `n` occurs as a contiguous sublist of `h`. -/
def substrAt (n : List Char) : List Char → Bool
  | [] => prefixMatch n []
  | b :: bs => prefixMatch n (b :: bs) || substrAt n bs

/-- Python's `needle in hay` test on strings: substring containment. -/
def containsStr (needle hay : String) : Bool :=
  substrAt needle.data hay.data

/-! ## Python `int()` (lines 131-138) -/

/-- Digits-to-number accumulator for `pyParseInt`. -/
def digitsVal (ds : List Char) : ℕ :=
  ds.foldl (fun acc c => acc * 10 + (c.toNat - 48)) 0

/-- Python 2 `int(s)` on a string: optional surrounding whitespace, an
optional sign, then one or more decimal digits; anything else raises
`ValueError`, modelled as `none`. -/
def pyParseInt (s : String) : Option ℤ :=
  let t := ((s.data.dropWhile Char.isWhitespace).reverse.dropWhile
    Char.isWhitespace).reverse
  let signed : ℤ × List Char :=
    match t with
    | '-' :: rest => (-1, rest)
    | '+' :: rest => (1, rest)
    | _ => (1, t)
  if signed.2.isEmpty then none
  else if signed.2.all Char.isDigit then some (signed.1 * (digitsVal signed.2 : ℤ))
  else none

/-! ## Band maps (lines 129-141) -/

/-- Lookup in an association list keyed by strings (Python dict access). -/
def dictLookup : List (String × ℤ) → String → Option ℤ
  | [], _ => none
  | (k', v) :: rest, k => if k' = k then some v else dictLookup rest k

/-- Python `dict.update` with a single key: replace the value in place if the key
is present (Python dicts keep insertion order), else append. -/
def dictUpdate : List (String × ℤ) → String → ℤ → List (String × ℤ)
  | [], k, v => [(k, v)]
  | (k', v') :: rest, k, v =>
    if k' = k then (k', v) :: rest else (k', v') :: dictUpdate rest k v

/-- The six default band keywords of the CLI with their default 1-based
indices (lines 65-76, collected at lines 129-130). -/
def defaultBands : List (String × ℤ) :=
  [("blue", 1), ("green", 2), ("red", 3), ("nir", 4), ("swir1", 5), ("swir2", 6)]

/-- Lines 131-138: merge user-supplied `NAME=INDEX` pairs into the band
map.  Each value is passed through `int(...)`; a `ValueError` becomes a
`click.BadParameter` error.  No positivity check is performed here. -/
def mergeUserBands : List (String × ℤ) → List (String × String) →
    Except String (List (String × ℤ))
  | base, [] => .ok base
  | base, kv :: rest =>
    match pyParseInt kv.2 with
    | some i => mergeUserBands (dictUpdate base kv.1 i) rest
    | none => .error "Value specified as KEY=VAL pair in --band must be an int"

/-- Line 141: `{k: v - 1 for k, v in _bands.iteritems() if k in expr}` —
keep the band-map entries whose NAME occurs as a substring of the
expression source text, converting the index to 0-based. -/
def critIndices (bands : List (String × ℤ)) (expr : String) : List (String × ℤ) :=
  (bands.filter (fun kv => containsStr kv.1 expr)).map (fun kv => (kv.1, kv.2 - 1))

/-! ## Predefined algorithms (lines 28-34) -/

/-- The `_ALGO` table: predefined algorithm name ↦ snuggs expression. -/
def _ALGO : List (String × String) :=
  [("maxNDVI", "(max (/ (- nir red) (+ nir red)))"),
   ("medianNDVI", "(median (/ (- nir red) (+ nir red)))"),
   ("ZheZhu", "(max (/ nir blue))"),
   ("minBlue", "(min blue)"),
   ("maxNIR", "(max nir)")]

/-- Lookup in the `_ALGO` table. -/
def algoLookup : List (String × String) → String → Option String
  | [], _ => none
  | (k', v) :: rest, k => if k' = k then some v else algoLookup rest k

/-! ## The criterion expression engine

`snuggs.eval(expr, **crit)` parses the S-expression and evaluates it over
the keyword arrays, using the function table the script installed at lines
144-147.  The AST is restricted to the arities actually formed by the
expressions at hand: unary applications (the selection functions) and
binary applications (the arithmetic operators `+ - * /`). -/

/-- A parsed snuggs S-expression. -/
inductive SExpr where
  | ident : String → SExpr
  | un : String → SExpr → SExpr
  | bin : String → SExpr → SExpr → SExpr
deriving DecidableEq, Repr

/-- A stacked per-band array for one block, indexed `[image][row][col]`. -/
abbrev Arr3 := List (List (List ℚ))

/-- A snuggs evaluation result: either a 3-D value array or the 2-D integer
index array produced by a selection function. -/
inductive SVal where
  | arr3 : Arr3 → SVal
  | arr2 : List (List ℕ) → SVal
deriving DecidableEq, Repr

/-- Row count of a stacked array (shape taken from the first image). -/
def rows3 (x : Arr3) : ℕ := (x.headD []).length

/-- Column count of a stacked array. -/
def cols3 (x : Arr3) : ℕ := ((x.headD []).headD []).length

/-- The values one pixel `(r, c)` takes across the stacked images. -/
def pixelCol (x : Arr3) (r c : ℕ) : List ℚ :=
  x.map (fun img => (img.getD r []).getD c 0)

/-- Apply a per-pixel image-axis reduction to every pixel, producing the
2-D `(row, col)` result of an `axis=0` numpy reduction. -/
def sel2 (f : List ℚ → ℕ) (x : Arr3) : List (List ℕ) :=
  (List.range (rows3 x)).map fun r =>
    (List.range (cols3 x)).map fun c => f (pixelCol x r c)

/-- Elementwise combination of two stacked arrays (numpy broadcasting of
equal shapes). -/
def zip3 (f : ℚ → ℚ → ℚ) (x y : Arr3) : Arr3 :=
  List.zipWith (fun p q => List.zipWith (fun u v => List.zipWith f u v) p q) x y

/-- Lookup of a name among the keyword arrays passed to `snuggs.eval`. -/
def envLookup : List (String × Arr3) → String → Option Arr3
  | [], _ => none
  | (k', v) :: rest, k => if k' = k then some v else envLookup rest k

/-- Evaluation of a parsed snuggs expression over the keyword arrays, with
the function table installed by the script: `max`, `min`, `median` are the
index-selection functions and `+ - * /` are elementwise.  An identifier
absent from the keyword arrays raises snuggs' name-not-defined error; an
operator outside the table, or an operand of the wrong kind, is an
evaluation error. -/
def evalS : SExpr → List (String × Arr3) → Except String SVal
  | .ident n, env =>
    match envLookup env n with
    | some a => .ok (.arr3 a)
    | none => .error ("name " ++ n ++ " is not defined")
  | .un op a, env => do
    let va ← evalS a env
    match op, va with
    | "max", .arr3 x => .ok (.arr2 (sel2 np_argmax x))
    | "min", .arr3 x => .ok (.arr2 (sel2 np_argmin x))
    | "median", .arr3 x => .ok (.arr2 (sel2 medianSelect x))
    | _, _ => .error ("invalid operator or operand: " ++ op)
  | .bin op a b, env => do
    let va ← evalS a env
    let vb ← evalS b env
    match op, va, vb with
    | "+", .arr3 x, .arr3 y => .ok (.arr3 (zip3 (· + ·) x y))
    | "-", .arr3 x, .arr3 y => .ok (.arr3 (zip3 (· - ·) x y))
    | "*", .arr3 x, .arr3 y => .ok (.arr3 (zip3 (· * ·) x y))
    | "/", .arr3 x, .arr3 y => .ok (.arr3 (zip3 (· / ·) x y))
    | _, _, _ => .error ("invalid operator or operand: " ++ op)

/-! ## The gather (lines 169 and 181-188)

`composite = np.rollaxis(dat, 1, 4)[crit_idx, mi, mj]` with
`mi, mj = np.meshgrid(np.arange(block_nrow), np.arange(block_ncol),
indexing='ij')`, then band `i_b` of the output is `composite[:, :, i_b]`.
The buffer is modelled as an index function `dat i b r c` (image, band,
row, col). -/

/-- Numpy `np.rollaxis(dat, 1, 4)`: move the band axis (axis 1) to the end, so
the rolled array is indexed `(image, row, col, band)`. -/
def npRollaxis14 (dat : ℕ → ℕ → ℕ → ℕ → ℚ) : ℕ → ℕ → ℕ → ℕ → ℚ :=
  fun i r c b => dat i b r c

/-- Array `mi` from `np.meshgrid(..., indexing='ij')`: the row coordinate. -/
def meshI (r _c : ℕ) : ℕ := r

/-- Array `mj` from `np.meshgrid(..., indexing='ij')`: the column coordinate. -/
def meshJ (_r c : ℕ) : ℕ := c

/-- Numpy integer fancy indexing `a[idx, mi, mj]` with three 2-D index
arrays of one shape: the result at `(r, c)` keeps the trailing band axis
and reads `a[idx[r,c], mi[r,c], mj[r,c], :]`. -/
def fancyGather (a : ℕ → ℕ → ℕ → ℕ → ℚ) (idx mi mj : ℕ → ℕ → ℕ) :
    ℕ → ℕ → ℕ → ℚ :=
  fun r c b => a (idx r c) (mi r c) (mj r c) b

/-- Line 183: the composite block, indexed `(row, col, band)`. -/
def compositeAt (dat : ℕ → ℕ → ℕ → ℕ → ℚ) (critIdx : ℕ → ℕ → ℕ) :
    ℕ → ℕ → ℕ → ℚ :=
  fancyGather (npRollaxis14 dat) critIdx meshI meshJ

/-- Lines 186-188: output band `b` at pixel `(r, c)` is
`composite[r, c, b]` (written to 1-based band `b + 1`). -/
def outputAt (dat : ℕ → ℕ → ℕ → ℕ → ℚ) (critIdx : ℕ → ℕ → ℕ)
    (b r c : ℕ) : ℚ :=
  compositeAt dat critIdx r c b

/-- View of the stacked list buffer `[image][band][row][col]` as an index
function. -/
def datFun (dat : List (List (List (List ℚ)))) : ℕ → ℕ → ℕ → ℕ → ℚ :=
  fun i b r c => (((dat.getD i []).getD b []).getD r []).getD c 0

/-- View of the 2-D winner-index list as an index function. -/
def idxFun (idx : List (List ℕ)) : ℕ → ℕ → ℕ :=
  fun r c => (idx.getD r []).getD c 0

/-- The gathered output block, `[band][row][col]`, assembled from the
stacked buffer and the winner-index map. -/
def gatherOutput (dat : List (List (List (List ℚ)))) (idx : List (List ℕ))
    (nbands nrows ncols : ℕ) : List (List (List ℚ)) :=
  (List.range nbands).map fun b =>
    (List.range nrows).map fun r =>
      (List.range ncols).map fun c => outputAt (datFun dat) (idxFun idx) b r c

/-! ## The pipeline (`image_composite`, lines 113-188) -/

/-- One input raster: its per-band block shapes (metadata) and its pixel
data for one block, indexed `[band][row][col]`. -/
structure InputRaster where
  blockShapes : List (ℕ × ℕ)
  bands : List (List (List ℚ))
deriving DecidableEq, Repr

/-- The errors the run can terminate with. -/
inductive RunErr where
  /-- Raised as `click.UsageError`: neither `--algo` nor `--expr` given (line 118). -/
  | usage : RunErr
  /-- Python `KeyError` from `_ALGO[algo]` on a name outside the table. -/
  | keyError : String → RunErr
  /-- Raised as `click.BadParameter` from a non-integer `--band NAME=INDEX` value. -/
  | badParameter : String → RunErr
  /-- Python `IndexError` from `rasterio.open(inputs[0])` with no inputs. -/
  | noInputs : RunErr
  /-- Raised as `click.Abort` when the first input's bands disagree on block
  shape (lines 156-159). -/
  | abort : RunErr
  /-- An error raised by `snuggs.eval` (parse failure, undefined name,
  invalid operator/operand) inside the block loop. -/
  | exprError : String → RunErr
  /-- The criterion evaluated to a 3-D array rather than a 2-D index array:
  the fancy indexing / per-band write at lines 183-188 fails downstream
  with a shape error. -/
  | gatherError : RunErr
  /-- A winner index outside `[0, image_count)`: numpy raises `IndexError`
  at line 183. -/
  | indexError : RunErr
deriving DecidableEq, Repr

/-- Observable events of one run, in order. -/
inductive Ev where
  /-- The block-shape check at lines 156-159 passed. -/
  | blockShapeCheckPassed : Ev
  /-- Read `src.read` of input `j`'s block (line 175): pixel data I/O. -/
  | readData : ℕ → Ev
  /-- Event: `snuggs.eval` returned a criterion result (line 179). -/
  | evaluatedCriterion : Ev
  /-- Output band `b` written (lines 186-188). -/
  | wroteBand : ℕ → Ev
deriving DecidableEq, Repr

/-- Lines 116-126: choose the criterion expression.  Python truthiness: an
absent option and the empty string are both falsy; the `elif` chain tests
`is not None`, so a present-but-empty `--algo` with a present `--expr`
still reaches the `_ALGO` lookup. -/
def chooseExpr : Option String → Option String → Except RunErr String
  | none, none => .error .usage
  | some a, none =>
    if a.isEmpty then .error .usage
    else match algoLookup _ALGO a with
      | some s => .ok s
      | none => .error (.keyError a)
  | none, some e => if e.isEmpty then .error .usage else .ok e
  | some a, some e =>
    if a.isEmpty && e.isEmpty then .error .usage
    else match algoLookup _ALGO a with
      | some s => .ok s
      | none => .error (.keyError a)

/-- Line 178: `crit = {k: dat[:, v, ...] for k, v in crit_indices}` — the
band-`v` plane of every image, stacked along the image axis. -/
def stackSlice (inputs : List InputRaster) (v : ℤ) : Arr3 :=
  inputs.map fun src => src.bands.getD v.toNat []

/-- The keyword arrays handed to `snuggs.eval` for one block. -/
def critEnv (inputs : List InputRaster) (ci : List (String × ℤ)) :
    List (String × Arr3) :=
  ci.map fun kv => (kv.1, stackSlice inputs kv.2)

/-- A finished run: the events it performed, in order, and its outcome
(the output block `[band][row][col]`, or the error it died with). -/
structure RunResult where
  trace : List Ev
  result : Except RunErr (List (List (List ℚ)))
deriving Repr

/-- The per-block body of the loop at lines 172-188, entered once the
block-shape check has passed: read every input's block (the `readData`
events), evaluate the criterion over the stacked slices with
`snuggs.eval` — which parses and then evaluates, inside the loop, after the
reads — and gather and write the output block. -/
def blockPhase (parse : String → Except String SExpr) (expr : String)
    (ci : List (String × ℤ)) (first : InputRaster)
    (rest : List InputRaster) : RunResult :=
  let inputs := first :: rest
  let readEvents := (List.range inputs.length).map Ev.readData
  let pre := Ev.blockShapeCheckPassed :: readEvents
  let env := critEnv inputs ci
  match parse expr with
  | .error m => ⟨pre, .error (.exprError m)⟩
  | .ok ast =>
    match evalS ast env with
    | .error m => ⟨pre, .error (.exprError m)⟩
    | .ok (.arr3 _) => ⟨pre ++ [.evaluatedCriterion], .error .gatherError⟩
    | .ok (.arr2 idx) =>
      let dat := inputs.map InputRaster.bands
      let nbands := first.bands.length
      let nrows := (first.blockShapes.getD 0 (0, 0)).1
      let ncols := (first.blockShapes.getD 0 (0, 0)).2
      if (List.range nrows).all (fun r =>
           (List.range ncols).all (fun c =>
             decide (idxFun idx r c < dat.length))) then
        ⟨pre ++ [.evaluatedCriterion] ++ (List.range nbands).map Ev.wroteBand,
         .ok (gatherOutput dat idx nbands nrows ncols)⟩
      else ⟨pre ++ [.evaluatedCriterion], .error .indexError⟩

/-- The compositing pipeline of `image_composite` (lines 113-188), for one
block window covering the block grid: choose the criterion expression,
merge the band overrides, restrict to the bands named in the expression
(substring test, line 141), check the block shapes of the first input only,
then run the block phase.  `parse` stands for snuggs' parser.  The source
iterates the block body over all block windows; every claim concerns the
setup stages or the first iteration, which this single-window model
reproduces stage for stage. -/
def imageCompositeRun (algo exprOpt : Option String)
    (parse : String → Except String SExpr)
    (userBands : List (String × String))
    (inputs : List InputRaster) : RunResult :=
  match chooseExpr algo exprOpt with
  | .error e => ⟨[], .error e⟩
  | .ok expr =>
    match mergeUserBands defaultBands userBands with
    | .error m => ⟨[], .error (.badParameter m)⟩
    | .ok bands =>
      match inputs with
      | [] => ⟨[], .error .noInputs⟩
      | first :: rest =>
        if first.blockShapes.dedup.length ≠ 1 then ⟨[], .error .abort⟩
        else blockPhase parse expr (critIndices bands expr) first rest

/-! ## Helper lemmas -/

theorem getD_range_map {α : Type} (f : ℕ → α) (d : α) {n r : ℕ} (h : r < n) :
    ((List.range n).map f).getD r d = f r := by
  rw [List.getD_eq_getElem?_getD, List.getElem?_map, List.getElem?_range h,
    Option.map_some']
  rfl

theorem le_listMax {l : List ℚ} {x : ℚ} (hx : x ∈ l) : x ≤ listMax l := by
  induction l with
  | nil => cases hx
  | cons a t ih =>
    cases t with
    | nil =>
      rcases List.mem_singleton.mp hx with rfl
      exact le_refl _
    | cons b t' =>
      rcases List.mem_cons.mp hx with rfl | h
      · exact le_max_left _ _
      · exact le_trans (ih h) (le_max_right _ _)

theorem listMin_le {l : List ℚ} {x : ℚ} (hx : x ∈ l) : listMin l ≤ x := by
  induction l with
  | nil => cases hx
  | cons a t ih =>
    cases t with
    | nil =>
      rcases List.mem_singleton.mp hx with rfl
      exact le_refl _
    | cons b t' =>
      rcases List.mem_cons.mp hx with rfl | h
      · exact min_le_left _ _
      · exact le_trans (min_le_right _ _) (ih h)

theorem np_argmax_lt_length {l : List ℚ} (h : l ≠ []) :
    np_argmax l < l.length := by
  induction l with
  | nil => exact absurd rfl h
  | cons a t ih =>
    cases t with
    | nil => simp [np_argmax]
    | cons b t' =>
      rw [np_argmax]
      split
      · simp
      · have := ih (by simp)
        simpa [Nat.succ_lt_succ_iff] using this

theorem np_argmin_lt_length {l : List ℚ} (h : l ≠ []) :
    np_argmin l < l.length := by
  induction l with
  | nil => exact absurd rfl h
  | cons a t ih =>
    cases t with
    | nil => simp [np_argmin]
    | cons b t' =>
      rw [np_argmin]
      split
      · simp
      · have := ih (by simp)
        simpa [Nat.succ_lt_succ_iff] using this

theorem getD_np_argmax {l : List ℚ} (h : l ≠ []) :
    l.getD (np_argmax l) 0 = listMax l := by
  induction l with
  | nil => exact absurd rfl h
  | cons a t ih =>
    cases t with
    | nil => simp [np_argmax, listMax]
    | cons b t' =>
      rw [np_argmax, listMax]
      split
      · next hle => simp [max_eq_left hle]
      · next hlt =>
        have hx : max a (listMax (b :: t')) = listMax (b :: t') :=
          max_eq_right (le_of_lt (lt_of_not_le hlt))
        simpa [hx] using ih (by simp)

theorem getD_np_argmin {l : List ℚ} (h : l ≠ []) :
    l.getD (np_argmin l) 0 = listMin l := by
  induction l with
  | nil => exact absurd rfl h
  | cons a t ih =>
    cases t with
    | nil => simp [np_argmin, listMin]
    | cons b t' =>
      rw [np_argmin, listMin]
      split
      · next hle => simp [min_eq_left hle]
      · next hlt =>
        have hx : min a (listMin (b :: t')) = listMin (b :: t') :=
          min_eq_right (le_of_lt (lt_of_not_le hlt))
        simpa [hx] using ih (by simp)

theorem np_argmax_first {l : List ℚ} :
    ∀ j < np_argmax l, l.getD j 0 < listMax l := by
  induction l with
  | nil => intro j hj; simp [np_argmax] at hj
  | cons a t ih =>
    cases t with
    | nil => intro j hj; simp [np_argmax] at hj
    | cons b t' =>
      intro j hj
      rw [np_argmax] at hj
      rw [listMax]
      split at hj
      · omega
      · next hlt =>
        have hx : max a (listMax (b :: t')) = listMax (b :: t') :=
          max_eq_right (le_of_lt (lt_of_not_le hlt))
        rw [hx]
        cases j with
        | zero => exact lt_of_not_le hlt
        | succ j' => exact ih j' (by omega)

theorem np_argmin_first {l : List ℚ} :
    ∀ j < np_argmin l, listMin l < l.getD j 0 := by
  induction l with
  | nil => intro j hj; simp [np_argmin] at hj
  | cons a t ih =>
    cases t with
    | nil => intro j hj; simp [np_argmin] at hj
    | cons b t' =>
      intro j hj
      rw [np_argmin] at hj
      rw [listMin]
      split at hj
      · omega
      · next hlt =>
        have hx : min a (listMin (b :: t')) = listMin (b :: t') :=
          min_eq_right (le_of_lt (lt_of_not_le hlt))
        rw [hx]
        cases j with
        | zero => exact lt_of_not_le hlt
        | succ j' => exact ih j' (by omega)

theorem getD_le_listMax {l : List ℚ} {j : ℕ} (hj : j < l.length) :
    l.getD j 0 ≤ listMax l := by
  rw [l.getD_eq_getElem 0 hj]
  exact le_listMax (l.getElem_mem hj)

theorem listMin_le_getD {l : List ℚ} {j : ℕ} (hj : j < l.length) :
    listMin l ≤ l.getD j 0 := by
  rw [l.getD_eq_getElem 0 hj]
  exact listMin_le (l.getElem_mem hj)

theorem length_pixelCol (x : Arr3) (r c : ℕ) :
    (pixelCol x r c).length = x.length := by
  simp [pixelCol]

theorem idxFun_sel2 (f : List ℚ → ℕ) (x : Arr3) {r c : ℕ}
    (hr : r < rows3 x) (hc : c < cols3 x) :
    idxFun (sel2 f x) r c = f (pixelCol x r c) := by
  rw [idxFun, sel2, getD_range_map _ _ hr, getD_range_map _ _ hc]

theorem pixelCol_ne_nil {x : Arr3} (hx : x ≠ []) (r c : ℕ) :
    pixelCol x r c ≠ [] := by
  intro h
  exact hx (List.map_eq_nil_iff.mp h)

theorem getD_map_dist (l : List ℚ) (m : ℚ) {j : ℕ} (hj : j < l.length) :
    (l.map (fun x => |x - m|)).getD j 0 = |l.getD j 0 - m| := by
  rw [List.getD_eq_getElem _ _ (by simpa using hj), List.getElem_map,
    List.getD_eq_getElem _ _ hj]

/-! ## Claims -/

/-- C1: the value the composite writes to output band `b` at pixel `(r, c)`
— `composite[r, c, b]` with `composite = np.rollaxis(dat, 1, 4)[crit_idx,
mi, mj]` — equals the stacked buffer value `dat[WinnerIndex[r,c], b, r, c]`,
both for the index-function form and for every in-range entry of the
assembled output block; hence all output bands at a pixel come from the
single image selected by the winner-index map. -/
theorem claim_C1_single_winner_gather (dat : ℕ → ℕ → ℕ → ℕ → ℚ)
    (critIdx : ℕ → ℕ → ℕ) (b r c : ℕ)
    (datL : List (List (List (List ℚ)))) (idx : List (List ℕ))
    (nbands nrows ncols : ℕ)
    (hb : b < nbands) (hr : r < nrows) (hc : c < ncols) :
    outputAt dat critIdx b r c = dat (critIdx r c) b r c ∧
    (((gatherOutput datL idx nbands nrows ncols).getD b []).getD r []).getD c 0 =
      datFun datL (idxFun idx r c) b r c := by
  constructor
  · rfl
  · rw [gatherOutput, getD_range_map _ _ hb, getD_range_map _ _ hr,
      getD_range_map _ _ hc]
    rfl

theorem claim_C1_single_winner_gather_witness :
    (0 : ℕ) < 1 ∧
    (outputAt (datFun [[[[5]]], [[[7]]]]) (idxFun [[1]]) 0 0 0 =
        datFun [[[[5]]], [[[7]]]] (idxFun [[1]] 0 0) 0 0 0 ∧
      (((gatherOutput [[[[5]]], [[[7]]]] [[1]] 1 1 1).getD 0 []).getD 0 []).getD 0 0 =
        datFun [[[[5]]], [[[7]]]] (idxFun [[1]] 0 0) 0 0 0) :=
  ⟨Nat.zero_lt_one,
   claim_C1_single_winner_gather (datFun [[[[5]]], [[[7]]]]) (idxFun [[1]])
     0 0 0 [[[[5]]], [[[7]]]] [[1]] 1 1 1 Nat.zero_lt_one Nat.zero_lt_one
     Nat.zero_lt_one⟩

/-- C4: on a stacked `(image, row, col)` array, the `max` selection
function installed by the script yields, per pixel, an in-range image index
whose value is greatest among the images (first occurrence), and `min`
likewise for the least value; concretely, `(min blue)` over images with
blue values `(5, 50, 20)` selects image index `0`, the image with
`blue = 5`. -/
theorem claim_C4_max_min_select (x : Arr3) (r c : ℕ) (hx : x ≠ [])
    (hr : r < rows3 x) (hc : c < cols3 x) :
    (idxFun (sel2 np_argmax x) r c < x.length ∧
      ∀ j < x.length,
        (pixelCol x r c).getD j 0 ≤
          (pixelCol x r c).getD (idxFun (sel2 np_argmax x) r c) 0) ∧
    (idxFun (sel2 np_argmin x) r c < x.length ∧
      ∀ j < x.length,
        (pixelCol x r c).getD (idxFun (sel2 np_argmin x) r c) 0 ≤
          (pixelCol x r c).getD j 0) ∧
    evalS (.un "min" (.ident "blue")) [("blue", [[[5]], [[50]], [[20]]])] =
      .ok (.arr2 [[0]]) := by
  have hl : pixelCol x r c ≠ [] := pixelCol_ne_nil hx r c
  rw [idxFun_sel2 np_argmax x hr hc, idxFun_sel2 np_argmin x hr hc]
  refine ⟨⟨?_, ?_⟩, ⟨?_, ?_⟩, ?_⟩
  · have := np_argmax_lt_length hl
    rwa [length_pixelCol] at this
  · intro j hj
    rw [getD_np_argmax hl]
    exact getD_le_listMax (by rw [length_pixelCol]; exact hj)
  · have := np_argmin_lt_length hl
    rwa [length_pixelCol] at this
  · intro j hj
    rw [getD_np_argmin hl]
    exact listMin_le_getD (by rw [length_pixelCol]; exact hj)
  · rfl

theorem claim_C4_max_min_select_witness :
    ([[[5]], [[50]], [[20]]] : Arr3) ≠ [] ∧
      (0 : ℕ) < rows3 [[[5]], [[50]], [[20]]] ∧
      (0 : ℕ) < cols3 [[[5]], [[50]], [[20]]] ∧
    ((idxFun (sel2 np_argmax [[[5]], [[50]], [[20]]]) 0 0 <
        ([[[5]], [[50]], [[20]]] : Arr3).length ∧
      ∀ j < ([[[5]], [[50]], [[20]]] : Arr3).length,
        (pixelCol [[[5]], [[50]], [[20]]] 0 0).getD j 0 ≤
          (pixelCol [[[5]], [[50]], [[20]]] 0 0).getD
            (idxFun (sel2 np_argmax [[[5]], [[50]], [[20]]]) 0 0) 0) ∧
    (idxFun (sel2 np_argmin [[[5]], [[50]], [[20]]]) 0 0 <
        ([[[5]], [[50]], [[20]]] : Arr3).length ∧
      ∀ j < ([[[5]], [[50]], [[20]]] : Arr3).length,
        (pixelCol [[[5]], [[50]], [[20]]] 0 0).getD
            (idxFun (sel2 np_argmin [[[5]], [[50]], [[20]]]) 0 0) 0 ≤
          (pixelCol [[[5]], [[50]], [[20]]] 0 0).getD j 0) ∧
    evalS (.un "min" (.ident "blue")) [("blue", [[[5]], [[50]], [[20]]])] =
      .ok (.arr2 [[0]])) :=
  ⟨by decide, by decide, by decide,
   claim_C4_max_min_select [[[5]], [[50]], [[20]]] 0 0 (by decide)
     (by decide) (by decide)⟩

/-- C3: on a stacked `(image, row, col)` array, the `median` selection
function installed by the script yields, per pixel, an in-range image index
whose value is numerically closest to the per-pixel `np.median` across
images, with ties broken in favour of the earliest image; concretely, for
per-pixel criterion values `(1/5, 1/2, 4/5)` it selects index `1`, the
image with value `1/2`. -/
theorem claim_C3_median_select (x : Arr3) (r c : ℕ) (hx : x ≠ [])
    (hr : r < rows3 x) (hc : c < cols3 x) :
    (idxFun (sel2 medianSelect x) r c < x.length ∧
      (∀ j < x.length,
        |(pixelCol x r c).getD (idxFun (sel2 medianSelect x) r c) 0 -
            np_median (pixelCol x r c)| ≤
          |(pixelCol x r c).getD j 0 - np_median (pixelCol x r c)|) ∧
      (∀ j < idxFun (sel2 medianSelect x) r c,
        |(pixelCol x r c).getD (idxFun (sel2 medianSelect x) r c) 0 -
            np_median (pixelCol x r c)| <
          |(pixelCol x r c).getD j 0 - np_median (pixelCol x r c)|)) ∧
    sel2 medianSelect [[[1/5]], [[1/2]], [[4/5]]] = [[1]] := by
  have hl : pixelCol x r c ≠ [] := pixelCol_ne_nil hx r c
  set l := pixelCol x r c with hldef
  set m := np_median l with hmdef
  have hdl : l.map (fun v => |v - m|) ≠ [] := by
    intro h; exact hl (List.map_eq_nil_iff.mp h)
  have hlen : (l.map (fun v => |v - m|)).length = l.length := List.length_map _ _
  have hxlen : l.length = x.length := length_pixelCol x r c
  have hsel : idxFun (sel2 medianSelect x) r c = np_argmin (l.map (fun v => |v - m|)) := by
    rw [idxFun_sel2 medianSelect x hr hc, medianSelect, ← hldef, ← hmdef]
  have hi : np_argmin (l.map (fun v => |v - m|)) < l.length := by
    have := np_argmin_lt_length hdl
    rwa [hlen] at this
  refine ⟨⟨?_, ?_, ?_⟩, by
    norm_num [sel2, rows3, cols3, pixelCol, medianSelect, np_median, np_argmin,
      listMin, List.insertionSort, List.orderedInsert, List.range_succ]⟩
  · rw [hsel, ← hxlen]; exact hi
  · intro j hj
    rw [hsel, ← getD_map_dist l m hi, ← getD_map_dist l m (by rw [hxlen]; exact hj)]
    rw [getD_np_argmin hdl]
    exact listMin_le_getD (by rw [hlen, hxlen]; exact hj)
  · intro j hj
    rw [hsel] at hj ⊢
    have hjl : j < l.length := lt_trans hj hi
    rw [← getD_map_dist l m hi, ← getD_map_dist l m hjl]
    rw [getD_np_argmin hdl]
    exact np_argmin_first j hj

/-- The parsed form of the concrete expressions exercised below, standing
for snuggs' parser on those source strings. -/
def ndviAst : SExpr :=
  .un "max" (.bin "/" (.bin "-" (.ident "nir") (.ident "red"))
                      (.bin "+" (.ident "nir") (.ident "red")))

/-- A concrete instantiation of the `parse` parameter: the snuggs parses of
the expression strings exercised by the concrete runs below. -/
def sampleParse : String → Except String SExpr := fun s =>
  if s = "(max (/ (- nir red) (+ nir red)))" then .ok ndviAst
  else if s = "(max ndwi)" then .ok (.un "max" (.ident "ndwi"))
  else if s = "(+ nir red)" then .ok (.bin "+" (.ident "nir") (.ident "red"))
  else if s = "(min blue)" then .ok (.un "min" (.ident "blue"))
  else if s = "(max nir)" then .ok (.un "max" (.ident "nir"))
  else .error "parse error"


theorem run_eq_blockPhase {algo exprOpt : Option String}
    {parse : String → Except String SExpr} {userBands : List (String × String)}
    {expr : String} {bands : List (String × ℤ)}
    {first : InputRaster} {rest : List InputRaster}
    (h1 : chooseExpr algo exprOpt = .ok expr)
    (h2 : mergeUserBands defaultBands userBands = .ok bands)
    (h3 : first.blockShapes.dedup.length = 1) :
    imageCompositeRun algo exprOpt parse userBands (first :: rest) =
      blockPhase parse expr (critIndices bands expr) first rest := by
  simp only [imageCompositeRun, h1, h2, h3]
  rw [if_neg (show ¬(1 ≠ 1) by omega)]

theorem blockPhase_arr2 (parse : String → Except String SExpr) (expr : String)
    (ci : List (String × ℤ)) (first : InputRaster) (rest : List InputRaster)
    (ast : SExpr) (idx : List (List ℕ))
    (hp : parse expr = .ok ast)
    (he : evalS ast (critEnv (first :: rest) ci) = .ok (.arr2 idx))
    (hb : ((List.range (first.blockShapes.getD 0 (0, 0)).1).all (fun r =>
            (List.range (first.blockShapes.getD 0 (0, 0)).2).all (fun c =>
              decide (idxFun idx r c <
                ((first :: rest).map InputRaster.bands).length)))) = true) :
    blockPhase parse expr ci first rest =
      ⟨Ev.blockShapeCheckPassed ::
          (List.range (first :: rest).length).map Ev.readData ++
          [.evaluatedCriterion] ++
          (List.range first.bands.length).map Ev.wroteBand,
       .ok (gatherOutput ((first :: rest).map InputRaster.bands) idx
              first.bands.length (first.blockShapes.getD 0 (0, 0)).1
              (first.blockShapes.getD 0 (0, 0)).2)⟩ := by
  simp only [blockPhase, hp, he]
  rw [if_pos hb]

/-- C2: compositing two 1x1-pixel single-block six-band images whose red
and nir values are `(10, 40)` and `(10, 100)` with the predefined `maxNDVI`
algorithm (`(max (/ (- nir red) (+ nir red)))`) produces exactly the second
image's band values at that pixel, whatever the other band values are. -/
theorem claim_C2_maxNDVI_composite (b1 g1 s1 t1 b2 g2 s2 t2 : ℚ) :
    (imageCompositeRun (some "maxNDVI") none sampleParse []
      [⟨[(1, 1)], [[[b1]], [[g1]], [[10]], [[40]], [[s1]], [[t1]]]⟩,
       ⟨[(1, 1)], [[[b2]], [[g2]], [[10]], [[100]], [[s2]], [[t2]]]⟩]).result =
    .ok [[[b2]], [[g2]], [[10]], [[100]], [[s2]], [[t2]]] := by
  have hargmax :
      np_argmax [((40 : ℚ) - 10) / (40 + 10), ((100 : ℚ) - 10) / (100 + 10)] = 1 := by
    norm_num [np_argmax, listMax]
  have heval : evalS ndviAst (critEnv
      [⟨[(1, 1)], [[[b1]], [[g1]], [[10]], [[40]], [[s1]], [[t1]]]⟩,
       ⟨[(1, 1)], [[[b2]], [[g2]], [[10]], [[100]], [[s2]], [[t2]]]⟩]
      [("red", 2), ("nir", 3)]) = .ok (.arr2 [[1]]) := by
    have h0 : evalS ndviAst (critEnv
        [⟨[(1, 1)], [[[b1]], [[g1]], [[10]], [[40]], [[s1]], [[t1]]]⟩,
         ⟨[(1, 1)], [[[b2]], [[g2]], [[10]], [[100]], [[s2]], [[t2]]]⟩]
        [("red", 2), ("nir", 3)]) =
        .ok (.arr2 [[np_argmax
          [((40 : ℚ) - 10) / (40 + 10), ((100 : ℚ) - 10) / (100 + 10)]]]) := rfl
    rw [h0, hargmax]
  have hrun : imageCompositeRun (some "maxNDVI") none sampleParse []
      [⟨[(1, 1)], [[[b1]], [[g1]], [[10]], [[40]], [[s1]], [[t1]]]⟩,
       ⟨[(1, 1)], [[[b2]], [[g2]], [[10]], [[100]], [[s2]], [[t2]]]⟩] =
      blockPhase sampleParse "(max (/ (- nir red) (+ nir red)))"
        [("red", 2), ("nir", 3)]
        ⟨[(1, 1)], [[[b1]], [[g1]], [[10]], [[40]], [[s1]], [[t1]]]⟩
        [⟨[(1, 1)], [[[b2]], [[g2]], [[10]], [[100]], [[s2]], [[t2]]]⟩] :=
    run_eq_blockPhase
      (show chooseExpr (some "maxNDVI") none =
        .ok "(max (/ (- nir red) (+ nir red)))" from rfl)
      (show mergeUserBands defaultBands [] = .ok defaultBands from rfl) rfl
  rw [hrun, blockPhase_arr2 sampleParse "(max (/ (- nir red) (+ nir red)))"
    [("red", 2), ("nir", 3)]
    ⟨[(1, 1)], [[[b1]], [[g1]], [[10]], [[40]], [[s1]], [[t1]]]⟩
    [⟨[(1, 1)], [[[b2]], [[g2]], [[10]], [[100]], [[s2]], [[t2]]]⟩]
    ndviAst [[1]] rfl heval rfl]
  rfl

theorem claim_C3_median_select_witness :
    ([[[1/5]], [[1/2]], [[4/5]]] : Arr3) ≠ [] ∧
      (0 : ℕ) < rows3 [[[1/5]], [[1/2]], [[4/5]]] ∧
      (0 : ℕ) < cols3 [[[1/5]], [[1/2]], [[4/5]]] ∧
    ((idxFun (sel2 medianSelect [[[1/5]], [[1/2]], [[4/5]]]) 0 0 <
        ([[[1/5]], [[1/2]], [[4/5]]] : Arr3).length ∧
      (∀ j < ([[[1/5]], [[1/2]], [[4/5]]] : Arr3).length,
        |(pixelCol [[[1/5]], [[1/2]], [[4/5]]] 0 0).getD
            (idxFun (sel2 medianSelect [[[1/5]], [[1/2]], [[4/5]]]) 0 0) 0 -
            np_median (pixelCol [[[1/5]], [[1/2]], [[4/5]]] 0 0)| ≤
          |(pixelCol [[[1/5]], [[1/2]], [[4/5]]] 0 0).getD j 0 -
            np_median (pixelCol [[[1/5]], [[1/2]], [[4/5]]] 0 0)|) ∧
      (∀ j < idxFun (sel2 medianSelect [[[1/5]], [[1/2]], [[4/5]]]) 0 0,
        |(pixelCol [[[1/5]], [[1/2]], [[4/5]]] 0 0).getD
            (idxFun (sel2 medianSelect [[[1/5]], [[1/2]], [[4/5]]]) 0 0) 0 -
            np_median (pixelCol [[[1/5]], [[1/2]], [[4/5]]] 0 0)| <
          |(pixelCol [[[1/5]], [[1/2]], [[4/5]]] 0 0).getD j 0 -
            np_median (pixelCol [[[1/5]], [[1/2]], [[4/5]]] 0 0)|)) ∧
    sel2 medianSelect [[[1/5]], [[1/2]], [[4/5]]] = [[1]]) :=
  ⟨by decide, by decide, by decide,
   claim_C3_median_select [[[1/5]], [[1/2]], [[4/5]]] 0 0 (by decide)
     (by decide) (by decide)⟩


/-- C10: when both a predefined algorithm name and a user expression are
supplied, the criterion expression used is the algorithm's entry in
`_ALGO`, and the user expression string has no influence on the choice. -/
theorem claim_C10_algo_overrides_expr (a e s : String)
    (ha : algoLookup _ALGO a = some s) :
    chooseExpr (some a) (some e) = .ok s ∧
    ∀ e', chooseExpr (some a) (some e) = chooseExpr (some a) (some e') := by
  have hae : a.isEmpty = false := by
    cases h : a.isEmpty
    · rfl
    · exfalso
      have ha' : a = "" := (String.isEmpty_iff a).mp h
      rw [ha'] at ha
      simp [algoLookup, _ALGO] at ha
  refine ⟨?_, fun e' => ?_⟩
  · simp [chooseExpr, hae, ha]
  · simp [chooseExpr, hae, ha]

theorem claim_C10_algo_overrides_expr_witness :
    chooseExpr (some "maxNDVI") (some "(min blue)") =
      .ok "(max (/ (- nir red) (+ nir red)))" ∧
    ∀ e', chooseExpr (some "maxNDVI") (some "(min blue)") =
      chooseExpr (some "maxNDVI") (some e') :=
  claim_C10_algo_overrides_expr "maxNDVI" "(min blue)"
    "(max (/ (- nir red) (+ nir red)))" (by decide)

theorem dictLookup_dictUpdate_self (m : List (String × ℤ)) (k : String) (v : ℤ) :
    dictLookup (dictUpdate m k v) k = some v := by
  induction m with
  | nil => simp [dictUpdate, dictLookup]
  | cons kv rest ih =>
    obtain ⟨k1, v1⟩ := kv
    by_cases h : k1 = k
    · simp [dictUpdate, dictLookup, h]
    · simp [dictUpdate, dictLookup, h, ih]

theorem dictLookup_dictUpdate_ne (m : List (String × ℤ)) (k1 k : String) (v : ℤ)
    (h : k1 ≠ k) : dictLookup (dictUpdate m k1 v) k = dictLookup m k := by
  induction m with
  | nil => simp [dictUpdate, dictLookup, h]
  | cons kv rest ih =>
    obtain ⟨k2, v2⟩ := kv
    by_cases h2 : k2 = k1
    · simp [dictUpdate, dictLookup, h2, h]
    · simp [dictUpdate, dictLookup, h2, ih]

theorem mergeUserBands_error_iff (ov : List (String × String)) :
    ∀ base, (∃ e, mergeUserBands base ov = .error e) ↔
      ∃ kv ∈ ov, pyParseInt kv.2 = none := by
  induction ov with
  | nil => intro base; simp [mergeUserBands]
  | cons kv t ih =>
    intro base
    cases h : pyParseInt kv.2 with
    | some i => simp [mergeUserBands, h, ih]
    | none => simp [mergeUserBands, h]

theorem mergeUserBands_lookup_preserved (ov : List (String × String)) :
    ∀ base m (k : String), k ∉ ov.map Prod.fst →
      mergeUserBands base ov = .ok m → dictLookup m k = dictLookup base k := by
  induction ov with
  | nil =>
    intro base m k _ hm
    simp [mergeUserBands] at hm
    rw [← hm]
  | cons p t ih =>
    intro base m k hk hm
    simp only [List.map_cons, List.mem_cons, not_or] at hk
    cases h : pyParseInt p.2 with
    | none => simp [mergeUserBands, h] at hm
    | some i =>
      rw [mergeUserBands, h] at hm
      rw [ih (dictUpdate base p.1 i) m k hk.2 hm,
        dictLookup_dictUpdate_ne base p.1 k i (fun hh => hk.1 hh.symm)]

theorem mergeUserBands_lookup (ov : List (String × String)) :
    ∀ base m, (ov.map Prod.fst).Nodup → mergeUserBands base ov = .ok m →
      ∀ kv ∈ ov, ∃ i, pyParseInt kv.2 = some i ∧ dictLookup m kv.1 = some i := by
  induction ov with
  | nil => intro base m _ _ kv hkv; cases hkv
  | cons p t ih =>
    intro base m hnd hm kv hkv
    cases h : pyParseInt p.2 with
    | none => simp [mergeUserBands, h] at hm
    | some i =>
      rw [mergeUserBands, h] at hm
      simp only [List.map_cons, List.nodup_cons] at hnd
      rcases List.mem_cons.mp hkv with rfl | hkv2
      · refine ⟨i, h, ?_⟩
        rw [mergeUserBands_lookup_preserved t (dictUpdate base kv.1 i) m kv.1 hnd.1 hm,
          dictLookup_dictUpdate_self]
      · exact ih (dictUpdate base p.1 i) m hnd.2 hm kv hkv2

/-- C9 (amended): merging user `NAME=INDEX` overrides fails iff some
supplied value does not parse as an integer at all; positivity is not
checked.  When every value parses (the CLI hands the overrides over as a
dict, so names are distinct), the merge succeeds and binds each overridden
name to its parsed integer — zero and negative indices included. -/
theorem claim_C9_merge_user_bands (base : List (String × ℤ))
    (ov : List (String × String)) :
    ((∃ e, mergeUserBands base ov = .error e) ↔
      ∃ kv ∈ ov, pyParseInt kv.2 = none) ∧
    (∀ m, (ov.map Prod.fst).Nodup → mergeUserBands base ov = .ok m →
      ∀ kv ∈ ov, ∃ i, pyParseInt kv.2 = some i ∧ dictLookup m kv.1 = some i) :=
  ⟨mergeUserBands_error_iff ov base,
   fun m hnd hm => mergeUserBands_lookup ov base m hnd hm⟩

theorem claim_C9_merge_user_bands_witness :
    ∃ i, pyParseInt "7" = some i ∧
      dictLookup [("blue", 1), ("green", 2), ("red", 3), ("nir", 4),
        ("swir1", 5), ("swir2", 6), ("foo", 7)] "foo" = some i :=
  (claim_C9_merge_user_bands defaultBands [("foo", "7")]).2
    [("blue", 1), ("green", 2), ("red", 3), ("nir", 4),
      ("swir1", 5), ("swir2", 6), ("foo", 7)]
    (by decide) rfl ("foo", "7") (by decide)

/-- C9 counterexample: the override `foo=0` supplies an index that is not a
positive integer, yet the merge succeeds (no `ConfigurationError`) and
binds `foo ↦ 0`. -/
theorem claim_C9_counterexample :
    mergeUserBands defaultBands [("foo", "0")] =
      .ok [("blue", 1), ("green", 2), ("red", 3), ("nir", 4),
        ("swir1", 5), ("swir2", 6), ("foo", 0)] ∧
    ¬ (1 : ℤ) ≤ 0 := ⟨rfl, by decide⟩


/-! ## C8: active band set vs free identifiers -/

/-- An identifier character: letter, digit or underscore. -/
def identChar (c : Char) : Bool := c.isAlpha || c.isDigit || c == '_'

/-- Worker for `freeIdents`: split into maximal `identChar` runs, carrying
the current (reversed) run. -/
def tokenize : List Char → List Char → List String
  | cur, [] => if cur.isEmpty then [] else [String.mk cur.reverse]
  | cur, c :: cs =>
    if identChar c then tokenize (c :: cur) cs
    else if cur.isEmpty then tokenize [] cs
    else String.mk cur.reverse :: tokenize [] cs

/-- Modelled from the spec: the free identifiers of a criterion
expression's source text — the maximal runs of identifier characters. -/
def freeIdents (s : String) : List String := tokenize [] s.data

/-- C8 counterexample: with the default band map and the expression
`(max nired)`, the resolver includes `red` (substring of `nired`), although
`red` is not a free identifier of the expression — the claimed "if and only
if a free identifier" fails. -/
theorem claim_C8_counterexample :
    "red" ∈ (critIndices defaultBands "(max nired)").map Prod.fst ∧
    "red" ∉ freeIdents "(max nired)" := by decide

/-- C8 (amended): resolving the active band set keeps exactly the entries
of the full band map whose NAME occurs as a contiguous substring of the
expression source text (Python `k in expr`), with the index shifted to
0-based — substring occurrence, not free-identifier occurrence. -/
theorem claim_C8_active_band_set (bands : List (String × ℤ)) (expr : String)
    (k : String) (v : ℤ) :
    (k, v) ∈ critIndices bands expr ↔
      ((k, v + 1) ∈ bands ∧ containsStr k expr = true) := by
  simp only [critIndices, List.mem_map, List.mem_filter]
  constructor
  · rintro ⟨⟨k1, w⟩, ⟨hmem, hsub⟩, heq⟩
    rw [Prod.mk.injEq] at heq
    obtain ⟨rfl, rfl⟩ := heq
    refine ⟨?_, hsub⟩
    have : w = w - 1 + 1 := by omega
    rw [← this]
    exact hmem
  · rintro ⟨hmem, hsub⟩
    refine ⟨(k, v + 1), ⟨hmem, hsub⟩, ?_⟩
    rw [Prod.mk.injEq]
    exact ⟨rfl, by omega⟩

/-! ## C5: the block-shape precondition -/

theorem blockPhase_result_ne_abort (parse : String → Except String SExpr)
    (expr : String) (ci : List (String × ℤ)) (first : InputRaster)
    (rest : List InputRaster) :
    (blockPhase parse expr ci first rest).result ≠ .error .abort := by
  simp only [blockPhase]
  split
  · simp
  · split
    · simp
    · simp
    · split
      · simp
      · simp

/-- Inputs whose block shapes agree within each raster but differ across
the two rasters. -/
def shapeA : InputRaster := ⟨[(1, 1)], [[[1]], [[2]], [[3]], [[4]]]⟩

/-- Second raster of the cross-raster mismatch pair: block shape `(2, 2)`
against `shapeA`'s `(1, 1)`. -/
def shapeB : InputRaster := ⟨[(2, 2)], [[[1]], [[2]], [[3]], [[9]]]⟩

/-- A first input whose own bands disagree on block shape. -/
def badFirst : InputRaster := ⟨[(1, 1), (2, 2)], [[[1]], [[2]], [[3]], [[4]]]⟩

/-- C5 counterexample: the two inputs report different block shapes, yet
the run does not fail: pixel data is read from both inputs and the
composite completes, because the check at lines 156-159 examines only the
first input's bands. -/
theorem claim_C5_counterexample :
    shapeA.blockShapes ≠ shapeB.blockShapes ∧
    Ev.readData 0 ∈
      (imageCompositeRun (some "maxNIR") none sampleParse [] [shapeA, shapeB]).trace ∧
    Ev.readData 1 ∈
      (imageCompositeRun (some "maxNIR") none sampleParse [] [shapeA, shapeB]).trace ∧
    (imageCompositeRun (some "maxNIR") none sampleParse [] [shapeA, shapeB]).result =
      .ok [[[1]], [[2]], [[3]], [[9]]] := by
  refine ⟨by decide, by decide, by decide, rfl⟩

/-- C5 (amended): the precondition check covers only the first input: the
run aborts iff the FIRST input's per-band block shapes take more than one
distinct value, and when it aborts nothing has been read (empty trace);
block-shape disagreement across different inputs is not detected. -/
theorem claim_C5_blockshape_check_first_only
    (algo exprOpt : Option String) (parse : String → Except String SExpr)
    (userBands : List (String × String)) (first : InputRaster)
    (rest : List InputRaster) (expr : String) (bands : List (String × ℤ))
    (h1 : chooseExpr algo exprOpt = .ok expr)
    (h2 : mergeUserBands defaultBands userBands = .ok bands) :
    ((imageCompositeRun algo exprOpt parse userBands (first :: rest)).result =
        .error .abort ↔ first.blockShapes.dedup.length ≠ 1) ∧
    (first.blockShapes.dedup.length ≠ 1 →
      (imageCompositeRun algo exprOpt parse userBands (first :: rest)).trace = []) := by
  by_cases h3 : first.blockShapes.dedup.length = 1
  · rw [run_eq_blockPhase h1 h2 h3]
    refine ⟨⟨fun hab => absurd hab (blockPhase_result_ne_abort _ _ _ _ _),
      fun hne => absurd h3 hne⟩, fun hne => absurd h3 hne⟩
  · have hrun : imageCompositeRun algo exprOpt parse userBands (first :: rest) =
        ⟨[], .error .abort⟩ := by
      simp only [imageCompositeRun, h1, h2]
      rw [if_pos h3]
    rw [hrun]
    exact ⟨⟨fun _ => h3, fun _ => rfl⟩, fun _ => rfl⟩

theorem claim_C5_blockshape_check_first_only_witness :
    ((imageCompositeRun (some "maxNIR") none sampleParse []
        [badFirst, shapeB]).result = .error .abort ↔
      badFirst.blockShapes.dedup.length ≠ 1) ∧
    (badFirst.blockShapes.dedup.length ≠ 1 →
      (imageCompositeRun (some "maxNIR") none sampleParse []
        [badFirst, shapeB]).trace = []) :=
  claim_C5_blockshape_check_first_only (some "maxNIR") none sampleParse []
    badFirst [shapeB] "(max nir)" defaultBands rfl rfl


/-! ## C6 and C7: when expression errors surface -/

theorem except_bind_error {ε α β : Type} (m : ε) (f : α → Except ε β) :
    (Except.error m >>= f : Except ε β) = .error m := rfl

theorem except_bind_ok {ε α β : Type} (a : α) (f : α → Except ε β) :
    (Except.ok a >>= f : Except ε β) = f a := rfl

/-- Test `mentions ast n`: true iff the identifier `n` occurs in the
expression. -/
def mentions : SExpr → String → Bool
  | .ident m, n => m == n
  | .un _ a, n => mentions a n
  | .bin _ a b, n => mentions a n || mentions b n

theorem evalS_error_of_mentions_undefined {ast : SExpr} {n : String}
    {env : List (String × Arr3)} (hm : mentions ast n = true)
    (he : envLookup env n = none) : ∃ m, evalS ast env = .error m := by
  induction ast with
  | ident s =>
    simp only [mentions, beq_iff_eq] at hm
    subst hm
    exact ⟨"name " ++ s ++ " is not defined", by simp [evalS, he]⟩
  | un op a ih =>
    simp only [mentions] at hm
    obtain ⟨m, hma⟩ := ih hm
    exact ⟨m, by simp [evalS, hma, except_bind_error]⟩
  | bin op a b iha ihb =>
    simp only [mentions, Bool.or_eq_true] at hm
    rcases hm with hma | hmb
    · obtain ⟨m, hma'⟩ := iha hma
      exact ⟨m, by simp [evalS, hma', except_bind_error]⟩
    · cases ha : evalS a env with
      | error m => exact ⟨m, by simp [evalS, ha, except_bind_error]⟩
      | ok va =>
        obtain ⟨m, hmb'⟩ := ihb hmb
        exact ⟨m, by simp [evalS, ha, hmb', except_bind_ok, except_bind_error]⟩

theorem dictLookup_eq_none {m : List (String × ℤ)} {n : String} :
    dictLookup m n = none ↔ n ∉ m.map Prod.fst := by
  induction m with
  | nil => simp [dictLookup]
  | cons kv rest ih =>
    obtain ⟨k1, v1⟩ := kv
    by_cases h : k1 = n
    · simp [dictLookup, h]
    · simp only [dictLookup, if_neg h, List.map_cons, List.mem_cons]
      rw [ih]
      constructor
      · rintro hn (rfl | hmem)
        · exact h rfl
        · exact hn hmem
      · intro hn hmem
        exact hn (Or.inr hmem)

theorem critIndices_lookup_none {bands : List (String × ℤ)} {expr : String}
    {n : String} (h : dictLookup bands n = none) :
    dictLookup (critIndices bands expr) n = none := by
  rw [dictLookup_eq_none] at h ⊢
  intro hmem
  apply h
  simp only [critIndices, List.map_map, List.mem_map, Function.comp] at hmem
  obtain ⟨kv, hkvmem, hkv⟩ := hmem
  exact List.mem_map.mpr ⟨kv, List.mem_of_mem_filter hkvmem, hkv⟩

theorem envLookup_critEnv_none {inputs : List InputRaster}
    {ci : List (String × ℤ)} {n : String} (h : dictLookup ci n = none) :
    envLookup (critEnv inputs ci) n = none := by
  induction ci with
  | nil => simp [critEnv, envLookup]
  | cons kv rest ih =>
    obtain ⟨k1, v1⟩ := kv
    by_cases hk : k1 = n
    · simp [dictLookup, hk] at h
    · simp only [dictLookup, if_neg hk] at h
      simp only [critEnv, List.map_cons, envLookup, if_neg hk]
      exact ih h

/-- C6 (amended): if the parsed criterion mentions a band name absent from
the full band map, the run fails with a snuggs evaluation error — but the
failure surfaces during the first block's evaluation, after that block's
data has been read from every input, not before block I/O. -/
theorem claim_C6_unknown_band_fails_after_read
    (algo exprOpt : Option String) (parse : String → Except String SExpr)
    (userBands : List (String × String)) (first : InputRaster)
    (rest : List InputRaster) (expr : String) (bands : List (String × ℤ))
    (ast : SExpr) (n : String)
    (h1 : chooseExpr algo exprOpt = .ok expr)
    (h2 : mergeUserBands defaultBands userBands = .ok bands)
    (h3 : first.blockShapes.dedup.length = 1)
    (hp : parse expr = .ok ast)
    (hn : mentions ast n = true)
    (hb : dictLookup bands n = none) :
    (∃ m, (imageCompositeRun algo exprOpt parse userBands
        (first :: rest)).result = .error (.exprError m)) ∧
    (imageCompositeRun algo exprOpt parse userBands (first :: rest)).trace =
      Ev.blockShapeCheckPassed ::
        (List.range (first :: rest).length).map Ev.readData := by
  rw [run_eq_blockPhase h1 h2 h3]
  have henv : envLookup (critEnv (first :: rest) (critIndices bands expr)) n =
      none := envLookup_critEnv_none (critIndices_lookup_none hb)
  obtain ⟨m, he⟩ := evalS_error_of_mentions_undefined hn henv
  constructor
  · exact ⟨m, by simp [blockPhase, hp, he]⟩
  · simp [blockPhase, hp, he]

/-- Concrete six-band 1×1 input images for the counterexample runs. -/
def img1c : InputRaster := ⟨[(1, 1)], [[[1]], [[2]], [[10]], [[40]], [[5]], [[6]]]⟩

/-- Second concrete input image. -/
def img2c : InputRaster := ⟨[(1, 1)], [[[7]], [[8]], [[10]], [[100]], [[9]], [[11]]]⟩

theorem claim_C6_unknown_band_fails_after_read_witness :
    (∃ m, (imageCompositeRun none (some "(max ndwi)") sampleParse []
        [img1c, img2c]).result = .error (.exprError m)) ∧
    (imageCompositeRun none (some "(max ndwi)") sampleParse []
        [img1c, img2c]).trace =
      Ev.blockShapeCheckPassed ::
        (List.range ([img1c, img2c] : List InputRaster).length).map Ev.readData :=
  claim_C6_unknown_band_fails_after_read none (some "(max ndwi)") sampleParse
    [] img1c [img2c] "(max ndwi)" defaultBands (.un "max" (.ident "ndwi"))
    "ndwi" rfl rfl rfl rfl (by decide) (by decide)

/-- C6 counterexample: with the user expression `(max ndwi)` referencing
the unregistered band `ndwi`, the run does fail with the undefined-name
evaluation error, but only after the first block has been read from both
inputs — block I/O does happen before the failure, contradicting
"before any block I/O". -/
theorem claim_C6_counterexample :
    (imageCompositeRun none (some "(max ndwi)") sampleParse []
        [img1c, img2c]).result =
      .error (.exprError "name ndwi is not defined") ∧
    Ev.readData 0 ∈ (imageCompositeRun none (some "(max ndwi)") sampleParse []
        [img1c, img2c]).trace ∧
    Ev.readData 1 ∈ (imageCompositeRun none (some "(max ndwi)") sampleParse []
        [img1c, img2c]).trace := by
  refine ⟨rfl, by decide, by decide⟩

/-- Whether `snuggs.eval` on this expression and keyword arrays produces a
2-D index array (the shape the gather at line 183 needs). -/
def isIndexResult (p : Except String SExpr) (env : List (String × Arr3)) : Bool :=
  match p with
  | .error _ => false
  | .ok ast =>
    match evalS ast env with
    | .ok (.arr2 _) => true
    | _ => false

/-- C7 (amended): when the criterion expression does not reduce to a 2-D
index array over the first block's stacked slices — it fails to parse,
contains an unsupported operator, errors during evaluation, or evaluates
to a 3-D (non-selection) array — the run fails, but only after the first
block has been read from every input: no validation happens before block
I/O. -/
theorem claim_C7_nonselection_fails_after_read
    (algo exprOpt : Option String) (parse : String → Except String SExpr)
    (userBands : List (String × String)) (first : InputRaster)
    (rest : List InputRaster) (expr : String) (bands : List (String × ℤ))
    (h1 : chooseExpr algo exprOpt = .ok expr)
    (h2 : mergeUserBands defaultBands userBands = .ok bands)
    (h3 : first.blockShapes.dedup.length = 1)
    (hbad : isIndexResult (parse expr)
      (critEnv (first :: rest) (critIndices bands expr)) = false) :
    (∃ e, (imageCompositeRun algo exprOpt parse userBands
        (first :: rest)).result = .error e) ∧
    (∃ t, (imageCompositeRun algo exprOpt parse userBands
        (first :: rest)).trace =
      (Ev.blockShapeCheckPassed ::
        (List.range (first :: rest).length).map Ev.readData) ++ t) := by
  rw [run_eq_blockPhase h1 h2 h3]
  cases hp : parse expr with
  | error m =>
    exact ⟨⟨.exprError m, by simp [blockPhase, hp]⟩,
      ⟨[], by simp [blockPhase, hp]⟩⟩
  | ok ast =>
    cases he : evalS ast (critEnv (first :: rest) (critIndices bands expr)) with
    | error m =>
      exact ⟨⟨.exprError m, by simp [blockPhase, hp, he]⟩,
        ⟨[], by simp [blockPhase, hp, he]⟩⟩
    | ok v =>
      cases v with
      | arr3 x =>
        exact ⟨⟨.gatherError, by simp [blockPhase, hp, he]⟩,
          ⟨[.evaluatedCriterion], by simp [blockPhase, hp, he]⟩⟩
      | arr2 idx =>
        exfalso
        simp [isIndexResult, hp, he] at hbad

theorem claim_C7_nonselection_fails_after_read_witness :
    (∃ e, (imageCompositeRun none (some "(+ nir red)") sampleParse []
        [img1c, img2c]).result = .error e) ∧
    (∃ t, (imageCompositeRun none (some "(+ nir red)") sampleParse []
        [img1c, img2c]).trace =
      (Ev.blockShapeCheckPassed ::
        (List.range ([img1c, img2c] : List InputRaster).length).map
          Ev.readData) ++ t) :=
  claim_C7_nonselection_fails_after_read none (some "(+ nir red)") sampleParse
    [] img1c [img2c] "(+ nir red)" defaultBands rfl rfl rfl (by decide)

/-- C7 counterexample: the user expression `(+ nir red)` has an arithmetic
operator, not a selection function, at its outermost node; the run fails at
the gather stage, after the first block has been read from both inputs and
the criterion evaluated — no `ConfigurationError` is raised before block
I/O. -/
theorem claim_C7_counterexample :
    (imageCompositeRun none (some "(+ nir red)") sampleParse []
        [img1c, img2c]).result = .error .gatherError ∧
    Ev.readData 0 ∈ (imageCompositeRun none (some "(+ nir red)") sampleParse []
        [img1c, img2c]).trace ∧
    Ev.readData 1 ∈ (imageCompositeRun none (some "(+ nir red)") sampleParse []
        [img1c, img2c]).trace := by
  refine ⟨rfl, by decide, by decide⟩

end ImageComposites
